import Mathlib

/-!
The oFono Bluetooth utility plugin, `plugins/bluetooth.c`.

A shallow embedding of the plugin's functions and the properties of its
behaviour: the device path builder, the asynchronous call helper, the
property-bag decoder, the profile registry with its adapter address cache,
and the completion callbacks of the discovery pipeline.
-/

namespace Bluetooth

/-! ## Path builder -/

/-- The string terminator of C. -/
def NUL : Char := Char.ofNat 0

/-- The characters of a C string held in a character list: those before the
first terminator (all of them when the list holds none). -/
def cstr (s : List Char) : List Char :=
  s.takeWhile (fun c => c != NUL)

/-- One of the two `for` loops of `bluetooth_create_path`: `addr` is what is
left of the source string from index `j` on, `i` the write index, `buf` the
output buffer.  The loop runs while `addr[j]` is not the terminator and
`i < size - 1`; a digit or an uppercase `A`..`F` is stored at `buf[i++]`. -/
def copy_hex (size : Int) : List Char → Nat → List Char → Nat × List Char
  | [], i, buf => (i, buf)
  | c :: rest, i, buf =>
    if c != NUL ∧ (i : Int) < size - 1 then
      if '0' ≤ c ∧ c ≤ '9' then copy_hex size rest (i + 1) (buf.set i c)
      else if 'A' ≤ c ∧ c ≤ 'F' then copy_hex size rest (i + 1) (buf.set i c)
      else copy_hex size rest i buf
    else (i, buf)

/-- Embedding of `bluetooth_create_path(dev_addr, adapter_addr, buf, size)`: the contents
of `buf` on return. -/
def bluetooth_create_path (dev_addr adapter_addr buf : List Char) (size : Int) : List Char :=
  let (i, buf) := copy_hex size adapter_addr 0 buf
  let (i, buf) := if (i : Int) < size - 1 then (i + 1, buf.set i '_') else (i, buf)
  let (i, buf) := copy_hex size dev_addr i buf
  buf.set i NUL

/-- The hex filter of the claim: the characters that are `0`..`9` or uppercase
`A`..`F`, in order. -/
def hex (s : List Char) : List Char :=
  s.filter (fun c => ('0' ≤ c ∧ c ≤ '9') ∨ ('A' ≤ c ∧ c ≤ 'F'))

/-! ## D-Bus messages, as far as the plugin inspects them -/

/-- Element type of a (homogeneous) D-Bus array of basic values. -/
inductive ElemKind where
  | string
  | object_path
  | other
  deriving DecidableEq, Repr

/-- A single complete D-Bus value as the decoders of this file see it through a
message iterator: a string, an object path, an array of basic elements (the
payloads are kept as strings), or a value of any other type. -/
inductive DBusValue where
  | string (s : String)
  | object_path (p : String)
  | array (kind : ElemKind) (elems : List String)
  | other
  deriving DecidableEq, Repr

/-- The second field of a dict entry: a variant wrapping a value, or a value
that is not wrapped in a variant. -/
inductive DBusField where
  | variant (v : DBusValue)
  | plain (v : DBusValue)
  deriving DecidableEq, Repr

/-- A dict entry: a key and a value field. -/
structure DictEntry where
  key : DBusValue
  value : DBusField
  deriving DecidableEq, Repr

/-- A top-level argument of a message: an array of dict entries, or any other
single value (arrays of basic values included). -/
inductive DBusArg where
  | dict (entries : List DictEntry)
  | value (v : DBusValue)
  deriving DecidableEq, Repr

/-- The message types of D-Bus. -/
inductive DBusMessageType where
  | method_call
  | method_return
  | error
  | signal
  deriving DecidableEq, Repr

/-- A reply message: its type, its error name (for error messages) and its
arguments. -/
structure DBusMessage where
  type : DBusMessageType
  error_name : Option String
  args : List DBusArg
  deriving DecidableEq, Repr

/-- Error name of libdbus for an absent service. -/
def DBUS_ERROR_SERVICE_UNKNOWN : String := "org.freedesktop.DBus.Error.ServiceUnknown"

/-- Error name of libdbus for an unknown method. -/
def DBUS_ERROR_UNKNOWN_METHOD : String := "org.freedesktop.DBus.Error.UnknownMethod"

/-- Embedding of `dbus_message_is_error(msg, name)`. -/
def dbus_message_is_error (msg : DBusMessage) (name : String) : Bool :=
  msg.type == .error && msg.error_name == some name

/-- Embedding of `strcmp`, up to the magnitude of a non-zero result. -/
def strcmp (a b : String) : Int :=
  if a.toList = b.toList then 0 else if a.toList < b.toList then -1 else 1

/-- Embedding of `strcasecmp` in the C locale, up to the magnitude of a non-zero result. -/
def strcasecmp (a b : String) : Int :=
  if a.toList.map Char.toLower = b.toList.map Char.toLower then 0
  else if a.toList.map Char.toLower < b.toList.map Char.toLower then -1 else 1

/-! ## Asynchronous call helper -/

/-- Embedding of `ENOMEM` of `errno.h`. -/
def ENOMEM : Int := 12

/-- Embedding of `EIO` of `errno.h`. -/
def EIO : Int := 5

/-- A 32-bit signed C `int` holding the integer `x` after wrap-around. -/
def wrap32 (x : Int) : Int :=
  (x + 2 ^ 31) % 2 ^ 32 - 2 ^ 31

/-- Lines 94-95 of `bluetooth_send_with_reply`:
`if (timeout > 0) timeout *= 1000;` on a 32-bit `int`. -/
def scale_timeout (timeout : Int) : Int :=
  if timeout > 0 then wrap32 (timeout * 1000) else timeout

/-- Outcomes of the three libdbus calls of `bluetooth_send_with_reply` that can
fail: `dbus_message_new_method_call` returned a message,
`dbus_message_append_args_valist` and `dbus_connection_send_with_reply`
returned true (the pending call it then hands back is taken to be non-null, as
on a connected connection). -/
structure DBusEnv where
  new_method_call : Bool
  append_args : Bool
  send_with_reply : Bool
  deriving DecidableEq, Repr

/-- What `bluetooth_send_with_reply` does to the outside, in order. -/
inductive SendEvent (κ υ φ : Type) where
  | ofono_error
  | free_func (f : φ) (user_data : υ)
  | message_unref
  | connection_send_with_reply (path interface method : String) (args : List DBusValue)
      (timeout : Int)
  | set_notify (cb : κ) (user_data : Option υ) (free_func : Option φ)
  | pending_call_unref
  deriving DecidableEq, Repr

/-- The `fail:` label of `bluetooth_send_with_reply`: the destructor runs when
both it and the context are non-null, the message is released when non-null. -/
def send_fail {κ υ φ : Type} (user_data : Option υ) (free_func : Option φ) (msg : Bool) :
    List (SendEvent κ υ φ) :=
  (match free_func, user_data with
    | some f, some d => [SendEvent.free_func f d]
    | _, _ => [])
  ++ (if msg then [SendEvent.message_unref] else [])

/-- Embedding of `bluetooth_send_with_reply(path, interface, method, cb, user_data, free_func,
timeout, type, ...)`: the return value and the calls made.  `args` stands for the
variadic argument list. -/
def bluetooth_send_with_reply {κ υ φ : Type} (env : DBusEnv) (path interface method : String)
    (cb : κ) (user_data : Option υ) (free_func : Option φ) (timeout : Int)
    (args : List DBusValue) : Int × List (SendEvent κ υ φ) :=
  if !env.new_method_call then
    (- ENOMEM, SendEvent.ofono_error :: send_fail user_data free_func false)
  else if !env.append_args then
    (- EIO, send_fail user_data free_func true)
  else
    let timeout := scale_timeout timeout
    if !env.send_with_reply then
      (- EIO, SendEvent.connection_send_with_reply path interface method args timeout
        :: SendEvent.ofono_error :: send_fail user_data free_func true)
    else
      (0, [SendEvent.connection_send_with_reply path interface method args timeout,
           SendEvent.set_notify cb user_data free_func,
           SendEvent.pending_call_unref,
           SendEvent.message_unref])

/-! ## Property-bag decoder -/

/-- Embedding of `struct property_handler`: a property name and the decoder to run for it.
`callback` is the C pair `(callback, user_data)`: the function pointer applied
to its context pointer. -/
structure property_handler (κ : Type) where
  property : String
  callback : κ

/-- Embedding of `property_handler_compare(a, b)`. -/
def property_handler_compare {κ : Type} (handler : property_handler κ) (property : String) : Int :=
  strcmp handler.property property

/-- Embedding of `g_slist_find_custom(list, data, func)`: the first element for which `func`
returns 0. -/
def g_slist_find_custom {α β : Type} (list : List α) (data : β) (func : α → β → Int) : Option α :=
  list.find? (fun a => func a data == 0)

/-- The `while` loop of `bluetooth_parse_properties` over the dict entries left
in the array: the calls `handler->callback(&value, handler->user_data)` made, in
order, each with the handler and the value inside the variant. -/
def parse_properties_loop {κ : Type} (prop_handlers : List (property_handler κ)) :
    List DictEntry → List (property_handler κ × DBusValue)
  | [] => []
  | entry :: rest =>
    match entry.key with
    | .string key =>
      match entry.value with
      | .variant value =>
        match g_slist_find_custom prop_handlers key property_handler_compare with
        | some handler => (handler, value) :: parse_properties_loop prop_handlers rest
        | none => parse_properties_loop prop_handlers rest
      | _ => []
    | _ => []

/-- Embedding of `bluetooth_parse_properties(reply, property, ...)`: `args` is the variadic
list of handlers in the order supplied; the result is the sequence of decoder
calls made. -/
def bluetooth_parse_properties {κ : Type} (reply : DBusMessage) (args : List (property_handler κ)) :
    List (property_handler κ × DBusValue) :=
  let prop_handlers := args.foldl (fun l handler => handler :: l) []
  match reply.args with
  | [] => []
  | .dict entries :: _ => parse_properties_loop prop_handlers entries
  | .value (.array _ _) :: _ => []
  | .value _ :: _ => []

/-- Runs decoder calls whose callbacks update a local state `σ` through their
context pointers. -/
def run_handlers {σ : Type} (calls : List (property_handler (DBusValue → σ → σ) × DBusValue))
    (locals : σ) : σ :=
  calls.foldl (fun s call => call.1.callback call.2 s) locals

/-! ## GLib hash tables behind a pointer -/

deriving instance DecidableEq for Except

/-- What the code can meet when it touches memory it must not. -/
inductive Fault where
  | use_after_free
  deriving DecidableEq, Repr

/-- A `GHashTable *` variable: null, pointing to a live table (string keys, values
that are nullable pointers), or still holding the address of a table that
`g_hash_table_destroy` has released. -/
inductive TablePtr (α : Type) where
  | null
  | live (entries : List (String × Option α))
  | freed
  deriving DecidableEq, Repr

/-- The value stored for `key` among the entries of a table: null when the key
is absent (or when null is what is stored). -/
def table_lookup {α : Type} (entries : List (String × Option α)) (key : String) : Option α :=
  (entries.find? (fun e => e.1 == key)).bind (fun e => e.2)

/-- Embedding of `g_hash_table_new_full(g_str_hash, g_str_equal, ...)`: a new, empty table. -/
def g_hash_table_new_full {α : Type} : TablePtr α :=
  .live []

/-- Embedding of `g_hash_table_insert(table, key, value)`: sets the value of `key`, replacing
a previous one.  On a null table GLib logs a critical warning and returns. -/
def g_hash_table_insert {α : Type} (table : TablePtr α) (key : String) (value : Option α) :
    Except Fault (TablePtr α) :=
  match table with
  | .null => .ok .null
  | .live entries => .ok (.live ((key, value) :: entries.filter (fun e => e.1 != key)))
  | .freed => .error .use_after_free

/-- Embedding of `g_hash_table_remove(table, key)`; a null table is left alone, as above. -/
def g_hash_table_remove {α : Type} (table : TablePtr α) (key : String) :
    Except Fault (TablePtr α) :=
  match table with
  | .null => .ok .null
  | .live entries => .ok (.live (entries.filter (fun e => e.1 != key)))
  | .freed => .error .use_after_free

/-- Embedding of `g_hash_table_size(table)`; 0 on a null table. -/
def g_hash_table_size {α : Type} (table : TablePtr α) : Except Fault Nat :=
  match table with
  | .null => .ok 0
  | .live entries => .ok entries.length
  | .freed => .error .use_after_free

/-- Embedding of `g_hash_table_lookup(table, key)`: the value stored for `key`, null when the
key is absent; null on a null table. -/
def g_hash_table_lookup {α : Type} (table : TablePtr α) (key : String) :
    Except Fault (Option α) :=
  match table with
  | .null => .ok none
  | .live entries => .ok (table_lookup entries key)
  | .freed => .error .use_after_free

/-- Embedding of `g_hash_table_destroy(table)`: releases the table; the variable keeps the
stale address.  A null table is left alone, as above. -/
def g_hash_table_destroy {α : Type} (table : TablePtr α) : Except Fault (TablePtr α) :=
  match table with
  | .null => .ok .null
  | .live _ => .ok .freed
  | .freed => .error .use_after_free

/-! ## Profile registry and adapter address cache -/

/-- Modelled from the spec: `struct bluetooth_profile` of `bluetooth.h`, which is
not among the sources; the ProfileDescriptor of the spec with its `create`
handler, a function pointer that may be null. -/
structure bluetooth_profile (φ : Type) where
  create : Option φ
  deriving DecidableEq, Repr

/-- The file-scope variables `uuid_hash` and `adapter_address_hash`. -/
structure State (φ : Type) where
  uuid_hash : TablePtr (bluetooth_profile φ)
  adapter_address_hash : TablePtr String
  deriving DecidableEq, Repr

/-- The state at program start: both pointers null. -/
def State.init {φ : Type} : State φ :=
  ⟨.null, .null⟩

/-- The completion callbacks of the pipeline. -/
inductive Callback where
  | manager_properties_cb
  | adapter_properties_cb
  | device_properties_cb
  deriving DecidableEq, Repr

/-- What the registry functions and the callbacks do to the outside: a call of
`bluetooth_send_with_reply` (with `GetProperties`, without arguments), and a
call of a profile's `create` handler. -/
inductive Event (φ : Type) where
  | send_with_reply (path interface method : String) (cb : Callback)
      (user_data : Option String) (timeout : Int)
  | create (create : φ) (path device_addr adapter_addr : String) (alias_ : Option String)
  deriving DecidableEq, Repr

/-- Modelled from the spec: the interface names of `bluetooth.h`, which is not
among the sources. -/
def BLUEZ_MANAGER_INTERFACE : String := "org.bluez.Manager"

/-- Modelled from the spec: see `BLUEZ_MANAGER_INTERFACE`. -/
def BLUEZ_ADAPTER_INTERFACE : String := "org.bluez.Adapter"

/-- Modelled from the spec: see `BLUEZ_MANAGER_INTERFACE`. -/
def BLUEZ_DEVICE_INTERFACE : String := "org.bluez.Device"

/-- Modelled from the spec: the profile bit `HFP_AG` of `bluetooth.h`, which is
not among the sources; the bit flag of the set-membership decoder. -/
def HFP_AG : Nat := 0x01

/-- Embedding of `bluetooth_register_uuid(uuid, profile)`: the return value, the new state and
the calls made. -/
def bluetooth_register_uuid {φ : Type} (st : State φ) (uuid : String)
    (profile : Option (bluetooth_profile φ)) :
    Except Fault (Int × State φ × List (Event φ)) := do
  let st : State φ :=
    match st.uuid_hash with
    | .null => ⟨g_hash_table_new_full, g_hash_table_new_full⟩
    | _ => st
  let uuid_hash ← g_hash_table_insert st.uuid_hash uuid profile
  pure (0, { st with uuid_hash := uuid_hash },
    [Event.send_with_reply "/" BLUEZ_MANAGER_INTERFACE "GetProperties"
      Callback.manager_properties_cb none (-1)])

/-- Embedding of `bluetooth_unregister_uuid(uuid)`: the new state. -/
def bluetooth_unregister_uuid {φ : Type} (st : State φ) (uuid : String) :
    Except Fault (State φ) := do
  let uuid_hash ← g_hash_table_remove st.uuid_hash uuid
  let size ← g_hash_table_size uuid_hash
  if size != 0 then
    pure { st with uuid_hash := uuid_hash }
  else
    let _ ← g_hash_table_destroy uuid_hash
    let adapter_address_hash ← g_hash_table_destroy st.adapter_address_hash
    pure ⟨.null, adapter_address_hash⟩

/-! ## Decoders and completion callbacks -/

/-- The `while` loop of `has_uuid` over the array elements left. -/
def has_uuid_loop (HFP_AG_UUID : String) (kind : ElemKind) : List String → Nat → Nat
  | [], profiles => profiles
  | uuid :: rest, profiles =>
    if kind = .string then
      has_uuid_loop HFP_AG_UUID kind rest
        (if strcasecmp uuid HFP_AG_UUID = 0 then profiles ||| HFP_AG else profiles)
    else profiles

/-- Embedding of `has_uuid(array, user_data)`: the new value of `*profiles`.  The constant
`HFP_AG_UUID` of `bluetooth.h` is a parameter. -/
def has_uuid (HFP_AG_UUID : String) (array : DBusValue) (profiles : Nat) : Nat :=
  match array with
  | .array kind elems => has_uuid_loop HFP_AG_UUID kind elems profiles
  | _ => profiles

/-- Embedding of `parse_string(iter, user_data)`: the new value of `*str`. -/
def parse_string (iter : DBusValue) (str : Option String) : Option String :=
  match iter with
  | .object_path p => some p
  | .string s => some s
  | _ => str

/-- The `while` loop of `parse_devices` over the array elements left. -/
def parse_devices_loop (kind : ElemKind) : List String → List String → List String
  | [], device_list => device_list
  | path :: rest, device_list =>
    if kind = .object_path then parse_devices_loop kind rest (path :: device_list)
    else device_list

/-- Embedding of `parse_devices(array, user_data)`: the new value of `*device_list`. -/
def parse_devices (array : DBusValue) (device_list : List String) : List String :=
  match array with
  | .array kind elems => parse_devices_loop kind elems device_list
  | _ => device_list

/-- The locals of `device_properties_cb` that the decoders write; `alias_` is the
local `alias`. -/
structure DeviceLocals where
  have_uuid : Nat
  adapter : Option String
  device_addr : Option String
  alias_ : Option String
  deriving DecidableEq, Repr

/-- The handlers that `device_properties_cb` passes to
`bluetooth_parse_properties`: `"UUIDs", has_uuid, &have_uuid`,
`"Adapter", parse_string, &adapter`, `"Address", parse_string, &device_addr`,
`"Alias", parse_string, &alias`. -/
def device_handlers (HFP_AG_UUID : String) :
    List (property_handler (DBusValue → DeviceLocals → DeviceLocals)) :=
  [⟨"UUIDs", fun it l => { l with have_uuid := has_uuid HFP_AG_UUID it l.have_uuid }⟩,
   ⟨"Adapter", fun it l => { l with adapter := parse_string it l.adapter }⟩,
   ⟨"Address", fun it l => { l with device_addr := parse_string it l.device_addr }⟩,
   ⟨"Alias", fun it l => { l with alias_ := parse_string it l.alias_ }⟩]

/-- Embedding of `device_properties_cb(call, user_data)`: `reply` is the reply stolen from the
pending call, `path` the device path in `user_data`; the result is the calls
made.  Log lines are left out. -/
def device_properties_cb {φ : Type} (HFP_AG_UUID : String) (st : State φ) (reply : DBusMessage)
    (path : String) : Except Fault (List (Event φ)) := do
  let locals : DeviceLocals := ⟨0, none, none, none⟩
  if dbus_message_is_error reply DBUS_ERROR_SERVICE_UNKNOWN then
    pure []
  else if reply.type == .error then
    pure []
  else
    let locals := run_handlers
      (bluetooth_parse_properties reply (device_handlers HFP_AG_UUID)) locals
    let adapter_addr ←
      match locals.adapter with
      | some adapter => g_hash_table_lookup st.adapter_address_hash adapter
      | none => pure none
    if locals.have_uuid &&& HFP_AG != 0 then
      match locals.device_addr, adapter_addr with
      | some device_addr, some adapter_addr =>
        let profile ← g_hash_table_lookup st.uuid_hash HFP_AG_UUID
        match profile with
        | none => pure []
        | some profile =>
          match profile.create with
          | none => pure []
          | some create => pure [Event.create create path device_addr adapter_addr locals.alias_]
      | _, _ => pure []
    else pure []

/-- The locals of `adapter_properties_cb` that the decoders write. -/
structure AdapterLocals where
  device_list : List String
  addr : Option String
  deriving DecidableEq, Repr

/-- Embedding of `adapter_properties_cb(call, user_data)`: `reply` is the reply stolen from the
pending call, `path` the adapter path in `user_data`, and `addr` the
indeterminate value of the local `addr`, which is declared without an
initialiser; the result is the new state and the calls made. -/
def adapter_properties_cb {φ : Type} (st : State φ) (reply : DBusMessage) (path : String)
    (addr : Option String) : Except Fault (State φ × List (Event φ)) := do
  let locals : AdapterLocals := ⟨[], addr⟩
  if dbus_message_is_error reply DBUS_ERROR_SERVICE_UNKNOWN then
    pure (st, [])
  else
    let locals := run_handlers (bluetooth_parse_properties reply
      [⟨"Devices", fun it l => { l with device_list := parse_devices it l.device_list }⟩,
       ⟨"Address", fun it l => { l with addr := parse_string it l.addr }⟩]) locals
    let adapter_address_hash ← g_hash_table_insert st.adapter_address_hash path locals.addr
    pure ({ st with adapter_address_hash := adapter_address_hash },
      locals.device_list.map (fun device =>
        Event.send_with_reply device BLUEZ_DEVICE_INTERFACE "GetProperties"
          Callback.device_properties_cb (some device) (-1)))

/-- The `while` loop of `parse_adapters` over the array elements left: one
adapter query per object path. -/
def parse_adapters_loop {φ : Type} (kind : ElemKind) : List String → List (Event φ) → List (Event φ)
  | [], sent => sent
  | path :: rest, sent =>
    if kind = .object_path then
      parse_adapters_loop kind rest (sent ++
        [Event.send_with_reply path BLUEZ_ADAPTER_INTERFACE "GetProperties"
          Callback.adapter_properties_cb (some path) (-1)])
    else sent

/-- Embedding of `parse_adapters(array, user_data)`: the calls made so far, extended. -/
def parse_adapters {φ : Type} (array : DBusValue) (sent : List (Event φ)) : List (Event φ) :=
  match array with
  | .array kind elems => parse_adapters_loop kind elems sent
  | _ => sent

/-- Embedding of `manager_properties_cb(call, user_data)`: the calls made. -/
def manager_properties_cb {φ : Type} (reply : DBusMessage) : List (Event φ) :=
  if dbus_message_is_error reply DBUS_ERROR_SERVICE_UNKNOWN then []
  else
    run_handlers (bluetooth_parse_properties reply
      [⟨"Adapters", fun it sent => parse_adapters it sent⟩]) []

/-- A call of the registration API. -/
inductive Call (φ : Type) where
  | register (uuid : String) (profile : Option (bluetooth_profile φ))
  | unregister (uuid : String)
  deriving DecidableEq, Repr

/-- Runs a sequence of registration calls from a state. -/
def run_calls {φ : Type} : List (Call φ) → State φ → Except Fault (State φ)
  | [], st => .ok st
  | .register uuid profile :: rest, st =>
    match bluetooth_register_uuid st uuid profile with
    | .ok (_, st, _) => run_calls rest st
    | .error e => .error e
  | .unregister uuid :: rest, st =>
    match bluetooth_unregister_uuid st uuid with
    | .ok st => run_calls rest st
    | .error e => .error e

/-! ## Vocabulary of the claims about a device reply -/

/-- The dict entries of the first argument of a reply (none when the reply has no
argument or the first one is not an array of dict entries). -/
def reply_entries (reply : DBusMessage) : List DictEntry :=
  match reply.args with
  | .dict entries :: _ => entries
  | _ => []

/-- A dict entry of a property bag: a string key and a variant value. -/
def DictEntry.well_formed (entry : DictEntry) : Bool :=
  match entry.key, entry.value with
  | .string _, .variant _ => true
  | _, _ => false

/-- The property name an entry carries: its key when that is a string. -/
def DictEntry.name (entry : DictEntry) : Option String :=
  match entry.key with
  | .string key => some key
  | _ => none

/-- The value of the property `name` among dict entries: the value inside the
variant of the entry whose key is the string `name`. -/
def entries_property (entries : List DictEntry) (name : String) : Option DBusValue :=
  match entries.find? (fun e => e.key == .string name) with
  | some ⟨_, .variant v⟩ => some v
  | _ => none

/-- The value of the property `name` of a reply, among the dict entries of its
first argument. -/
def reply_property (reply : DBusMessage) (name : String) : Option DBusValue :=
  entries_property (reply_entries reply) name

/-- The text of a value that is a string or an object path. -/
def string_value : DBusValue → Option String
  | .string s => some s
  | .object_path p => some p
  | _ => none

/-- The value is an array of strings with an element equal to `uuid` ignoring
case. -/
def lists_uuid (uuid : String) : DBusValue → Bool
  | .array .string elems => elems.any (fun u => strcasecmp u uuid == 0)
  | _ => false

/-- The calls of `create` that the amended C2 describes for a device reply, given
the entries of the registry and of the adapter address cache: one call when the
reply is not an error, its `UUIDs` lists the hands-free audio-gateway UUID, its
`Address` is a string or an object path, its `Adapter` is a string or an object
path that the cache maps to an address, and the registry maps the UUID to a
descriptor with a `create` handler; none otherwise. -/
def expected_create {φ : Type} (HFP_AG_UUID : String)
    (registry : List (String × Option (bluetooth_profile φ)))
    (cache : List (String × Option String)) (reply : DBusMessage) (path : String) :
    List (Event φ) :=
  if reply.type = .error then []
  else
    match reply_property reply "UUIDs",
      (reply_property reply "Address").bind string_value,
      ((reply_property reply "Adapter").bind string_value).bind (table_lookup cache),
      (table_lookup registry HFP_AG_UUID).bind (fun profile => profile.create) with
    | some uuids, some device_addr, some adapter_addr, some create =>
      if lists_uuid HFP_AG_UUID uuids then
        [Event.create create path device_addr adapter_addr
          ((reply_property reply "Alias").bind string_value)]
      else []
    | _, _, _, _ => []

/-- The lifecycle invariant of the two tables: either both are live and the
profile mapping holds at least one entry, or the profile mapping is null and the
cache is null (never created) or released. -/
def State.invariant {φ : Type} (st : State φ) : Prop :=
  match st.uuid_hash, st.adapter_address_hash with
  | .live registry, .live _ => registry ≠ []
  | .null, .null => True
  | .null, .freed => True
  | _, _ => False

/-! ## Theorems: path builder -/

theorem set_length_append (pre : List Char) (x c : Char) (r : List Char) :
    (pre ++ x :: r).set pre.length c = pre ++ c :: r := by
  induction pre with
  | nil => rfl
  | cons a t ih => simp [List.set, ih]

theorem cstr_cons_nul (rest : List Char) : cstr (NUL :: rest) = [] := by
  simp [cstr]

theorem cstr_cons_of_ne {c : Char} (h : c ≠ NUL) (rest : List Char) :
    cstr (c :: rest) = c :: cstr rest := by
  simp [cstr, List.takeWhile_cons, h]

theorem copy_hex_append (n : Nat) (src : List Char) :
    ∀ (pre rest : List Char), pre.length ≤ n → n < pre.length + rest.length →
      copy_hex ((n : Int) + 1) src pre.length (pre ++ rest)
        = (pre.length + min (hex (cstr src)).length (n - pre.length),
           pre ++ (hex (cstr src)).take (n - pre.length)
             ++ rest.drop (min (hex (cstr src)).length (n - pre.length))) := by
  induction src with
  | nil => intro pre rest _ _; simp [copy_hex, cstr, hex]
  | cons c t ih =>
    intro pre rest hle hlt
    by_cases hc : c = NUL
    · subst hc
      simp [copy_hex, cstr_cons_nul, hex]
    · rw [cstr_cons_of_ne hc]
      by_cases hi : pre.length < n
      · have hcond : (c != NUL) = true ∧ ((pre.length : Nat) : Int) < (n : Int) + 1 - 1 := by
          refine ⟨by simpa using hc, by omega⟩
        obtain ⟨x, r, rfl⟩ : ∃ x r, rest = x :: r := by
          cases rest with
          | nil => simp at hlt; omega
          | cons x r => exact ⟨x, r, rfl⟩
        have hstep := ih (pre ++ [c]) r (by simp; omega) (by simp at hlt ⊢; omega)
        have hlen : (pre ++ [c]).length = pre.length + 1 := by simp
        rw [hlen] at hstep
        have hsub : n - pre.length = (n - (pre.length + 1)) + 1 := by omega
        by_cases hd : '0' ≤ c ∧ c ≤ '9'
        · have hh : hex (c :: cstr t) = c :: hex (cstr t) := by
            simp [hex, List.filter_cons, hd]
          rw [copy_hex, if_pos hcond, if_pos hd, set_length_append]
          have : pre ++ c :: r = (pre ++ [c]) ++ r := by simp
          rw [this, hstep, hh, hsub]
          simp [List.take_succ_cons, Nat.succ_min_succ]
          omega
        · by_cases hu : 'A' ≤ c ∧ c ≤ 'F'
          · have hh : hex (c :: cstr t) = c :: hex (cstr t) := by
              simp [hex, List.filter_cons, hu]
            rw [copy_hex, if_pos hcond, if_neg hd, if_pos hu, set_length_append]
            have : pre ++ c :: r = (pre ++ [c]) ++ r := by simp
            rw [this, hstep, hh, hsub]
            simp [List.take_succ_cons, Nat.succ_min_succ]
            omega
          · have hh : hex (c :: cstr t) = hex (cstr t) := by
              simp [hex, List.filter_cons, hd, hu]
            rw [copy_hex, if_pos hcond, if_neg hd, if_neg hu, ih pre (x :: r) hle hlt, hh]
      · have hcond : ¬ ((c != NUL) = true ∧ ((pre.length : Nat) : Int) < (n : Int) + 1 - 1) := by
          intro h; omega
        have hz : n - pre.length = 0 := by omega
        rw [copy_hex, if_neg hcond, hz]
        simp

theorem set_nul_append (pre rest : List Char) (h : 0 < rest.length) :
    (pre ++ rest).set pre.length NUL = pre ++ NUL :: rest.drop 1 := by
  cases rest with
  | nil => simp at h
  | cons x r => simp [set_length_append]

theorem create_path_nat (dev_addr adapter_addr buf : List Char) (n : Nat)
    (hbuf : n + 1 ≤ buf.length) :
    bluetooth_create_path dev_addr adapter_addr buf ((n : Int) + 1)
      = (hex (cstr adapter_addr) ++ '_' :: hex (cstr dev_addr)).take n
          ++ NUL :: buf.drop
              (((hex (cstr adapter_addr) ++ '_' :: hex (cstr dev_addr)).take n).length + 1) := by
  have h1 := copy_hex_append n adapter_addr [] buf (by simp) (by simp; omega)
  simp only [List.length_nil, List.nil_append, Nat.zero_add, Nat.sub_zero] at h1
  unfold bluetooth_create_path
  rw [h1]
  by_cases hk : (hex (cstr adapter_addr)).length < n
  · have hmin : min (hex (cstr adapter_addr)).length n = (hex (cstr adapter_addr)).length := by
      omega
    have htake : (hex (cstr adapter_addr)).take n = hex (cstr adapter_addr) :=
      List.take_of_length_le (by omega)
    have hcond : ((min (hex (cstr adapter_addr)).length n : Nat) : Int) < (n : Int) + 1 - 1 := by
      omega
    simp only [if_pos hcond]
    rw [hmin, htake]
    have hb : (hex (cstr adapter_addr)).length < buf.length := by omega
    have hdrop : buf.drop (hex (cstr adapter_addr)).length
        = buf[(hex (cstr adapter_addr)).length]
            :: buf.drop ((hex (cstr adapter_addr)).length + 1) :=
      List.drop_eq_getElem_cons hb
    rw [hdrop, set_length_append]
    have h3 := copy_hex_append n dev_addr (hex (cstr adapter_addr) ++ ['_'])
      (buf.drop ((hex (cstr adapter_addr)).length + 1)) (by simp; omega) (by simp; omega)
    have hl : (hex (cstr adapter_addr) ++ ['_']).length = (hex (cstr adapter_addr)).length + 1 := by
      simp
    rw [hl] at h3
    have hre : hex (cstr adapter_addr) ++ '_' :: buf.drop ((hex (cstr adapter_addr)).length + 1)
        = (hex (cstr adapter_addr) ++ ['_']) ++ buf.drop ((hex (cstr adapter_addr)).length + 1) := by
      simp
    rw [hre, h3]
    simp only []
    have hlen2 : (hex (cstr adapter_addr) ++ ['_']
        ++ (hex (cstr dev_addr)).take (n - ((hex (cstr adapter_addr)).length + 1))).length
        = (hex (cstr adapter_addr)).length + 1
          + min (hex (cstr dev_addr)).length (n - ((hex (cstr adapter_addr)).length + 1)) := by
      simp [Nat.min_comm]
      omega
    rw [← hlen2, set_nul_append _ _ (by simp; omega)]
    have hE : (hex (cstr adapter_addr) ++ '_' :: hex (cstr dev_addr)).take n
        = hex (cstr adapter_addr) ++ ['_']
          ++ (hex (cstr dev_addr)).take (n - ((hex (cstr adapter_addr)).length + 1)) := by
      rw [List.take_append_eq_append_take]
      rw [htake]
      have : n - (hex (cstr adapter_addr)).length
          = (n - ((hex (cstr adapter_addr)).length + 1)) + 1 := by omega
      rw [this, List.take_succ_cons]
      simp
    rw [hE, hlen2]
    simp [List.drop_drop]
  · have hmin : min (hex (cstr adapter_addr)).length n = n := by omega
    have hcond : ¬ ((min (hex (cstr adapter_addr)).length n : Nat) : Int) < (n : Int) + 1 - 1 := by
      omega
    simp only [if_neg hcond]
    rw [hmin]
    have hlen : ((hex (cstr adapter_addr)).take n).length = n := by
      simp; omega
    have h3 := copy_hex_append n dev_addr ((hex (cstr adapter_addr)).take n) (buf.drop n)
      (by omega) (by simp; omega)
    rw [hlen] at h3
    simp only [Nat.sub_self, Nat.min_zero, Nat.add_zero, List.take_zero, List.append_nil,
      List.drop_zero] at h3
    rw [h3]
    simp only []
    have hE : (hex (cstr adapter_addr) ++ '_' :: hex (cstr dev_addr)).take n
        = (hex (cstr adapter_addr)).take n := by
      rw [List.take_append_eq_append_take]
      have : n - (hex (cstr adapter_addr)).length = 0 := by omega
      simp [this]
    rw [hE, hlen]
    have := set_nul_append ((hex (cstr adapter_addr)).take n) (buf.drop n) (by simp; omega)
    rw [hlen] at this
    rw [this]
    simp [List.drop_drop, Nat.add_comm]

theorem mem_hex {c : Char} {s : List Char} (h : c ∈ hex s) :
    ('0' ≤ c ∧ c ≤ '9') ∨ ('A' ≤ c ∧ c ≤ 'F') := by
  simpa [hex] using (List.mem_filter.mp h).2

theorem underscore_not_mem_hex (s : List Char) : '_' ∉ hex s := by
  intro h
  have := mem_hex h
  revert this
  decide

theorem nul_not_mem_hex (s : List Char) : NUL ∉ hex s := by
  intro h
  have := mem_hex h
  revert this
  decide

theorem cstr_append_nul (p rest : List Char) (h : NUL ∉ p) : cstr (p ++ NUL :: rest) = p := by
  induction p with
  | nil => simp [cstr]
  | cons a t ih =>
    have ha : a ≠ NUL := fun e => h (by simp [e])
    have ht : NUL ∉ t := fun e => h (by simp [e])
    have := ih ht
    simp only [cstr] at this ⊢
    simp [List.takeWhile_cons, ha, this]

/-- C1: for every device address, adapter address and capacity `size >= 1` (the
buffer holding at least `size` characters),
`bluetooth_create_path` leaves in `buf` the first `size - 1` characters of
`hex(adapter_addr) ++ "_" ++ hex(dev_addr)` followed by the terminator (the rest
of the buffer is untouched), so the C string in `buf` is exactly that prefix; it
holds only `_`, digits and uppercase `A`..`F`, has at most `size - 1` characters,
and contains the `_` exactly when `hex(adapter_addr)` is shorter than `size - 1`. -/
theorem bluetooth_create_path_spec (dev_addr adapter_addr buf : List Char) (size : Int)
    (hsize : 1 ≤ size) (hbuf : size ≤ (buf.length : Int)) :
    bluetooth_create_path dev_addr adapter_addr buf size
        = (hex (cstr adapter_addr) ++ '_' :: hex (cstr dev_addr)).take (size - 1).toNat
            ++ NUL :: buf.drop
              (((hex (cstr adapter_addr) ++ '_' :: hex (cstr dev_addr)).take
                  (size - 1).toNat).length + 1)
      ∧ cstr (bluetooth_create_path dev_addr adapter_addr buf size)
        = (hex (cstr adapter_addr) ++ '_' :: hex (cstr dev_addr)).take (size - 1).toNat
      ∧ ((cstr (bluetooth_create_path dev_addr adapter_addr buf size)).length : Int) ≤ size - 1
      ∧ ('_' ∈ cstr (bluetooth_create_path dev_addr adapter_addr buf size)
          ↔ ((hex (cstr adapter_addr)).length : Int) < size - 1)
      ∧ ∀ c ∈ cstr (bluetooth_create_path dev_addr adapter_addr buf size),
          c = '_' ∨ ('0' ≤ c ∧ c ≤ '9') ∨ ('A' ≤ c ∧ c ≤ 'F') := by
  obtain ⟨n, rfl⟩ : ∃ n : Nat, size = (n : Int) + 1 := ⟨(size - 1).toNat, by omega⟩
  have hn : ((n : Int) + 1 - 1).toNat = n := by omega
  have hlen : n + 1 ≤ buf.length := by omega
  have hmain := create_path_nat dev_addr adapter_addr buf n hlen
  have hchars : ∀ c ∈ (hex (cstr adapter_addr) ++ '_' :: hex (cstr dev_addr)).take n,
      c = '_' ∨ ('0' ≤ c ∧ c ≤ '9') ∨ ('A' ≤ c ∧ c ≤ 'F') := by
    intro c hc
    have hc' := List.mem_of_mem_take hc
    rcases List.mem_append.mp hc' with h | h
    · exact Or.inr (mem_hex h)
    · rcases List.mem_cons.mp h with h | h
      · exact Or.inl h
      · exact Or.inr (mem_hex h)
  have hnul : NUL ∉ (hex (cstr adapter_addr) ++ '_' :: hex (cstr dev_addr)).take n := by
    intro h
    have := hchars NUL h
    revert this
    decide
  have hcstr : cstr (bluetooth_create_path dev_addr adapter_addr buf ((n : Int) + 1))
      = (hex (cstr adapter_addr) ++ '_' :: hex (cstr dev_addr)).take n := by
    rw [hmain]
    exact cstr_append_nul _ _ hnul
  rw [hn, hcstr]
  refine ⟨hmain, rfl, ?_, ?_, hchars⟩
  · have : ((hex (cstr adapter_addr) ++ '_' :: hex (cstr dev_addr)).take n).length ≤ n := by
      simp
    omega
  · constructor
    · intro h
      by_contra hge
      have hge' : n ≤ (hex (cstr adapter_addr)).length := by omega
      rw [List.take_append_of_le_length hge'] at h
      exact underscore_not_mem_hex _ (List.mem_of_mem_take h)
    · intro h
      have hlt : (hex (cstr adapter_addr)).length < n := by omega
      rw [List.take_append_eq_append_take, List.take_of_length_le (by omega)]
      have : n - (hex (cstr adapter_addr)).length
          = (n - (hex (cstr adapter_addr)).length - 1) + 1 := by omega
      rw [this, List.take_succ_cons]
      simp

/-- Witness for C1 at the adapter address `aa:BB:11:cc`, the device address
`AA:bb:01` and a 20-byte buffer: the adapter contributes `BB11`. -/
theorem bluetooth_create_path_spec_witness :
    cstr (bluetooth_create_path "AA:bb:01".toList "aa:BB:11:cc".toList (List.replicate 20 'x') 20)
      = "BB11_AA01".toList
    ∧ hex (cstr "aa:BB:11:cc".toList) = "BB11".toList := by
  have h := (bluetooth_create_path_spec "AA:bb:01".toList "aa:BB:11:cc".toList
    (List.replicate 20 'x') 20 (by decide) (by decide)).2.1
  exact ⟨h.trans (by decide), by decide⟩

/-! ## Theorems: asynchronous call helper -/

/-- C6: `bluetooth_send_with_reply` returns 0 exactly when message construction,
argument encoding and transport dispatch all succeed, `-ENOMEM` when construction
fails and `-EIO` when encoding or dispatch fails.  On a failure path no
completion callback is registered and the destructor is called exactly once, on
the context, when both were supplied, and not at all otherwise.  On the success
path the destructor is not called; callback, context and destructor are handed
to the pending call. -/
theorem bluetooth_send_with_reply_result {κ υ φ : Type} (env : DBusEnv)
    (path interface method : String) (cb : κ) (user_data : Option υ) (free_func : Option φ)
    (timeout : Int) (args : List DBusValue) :
    ((bluetooth_send_with_reply env path interface method cb user_data free_func timeout args).1 = 0
        ↔ env.new_method_call = true ∧ env.append_args = true ∧ env.send_with_reply = true)
    ∧ (env.new_method_call = false →
        (bluetooth_send_with_reply env path interface method cb user_data free_func timeout args).1
          = - ENOMEM)
    ∧ (env.new_method_call = true → (env.append_args = false ∨ env.send_with_reply = false) →
        (bluetooth_send_with_reply env path interface method cb user_data free_func timeout args).1
          = - EIO)
    ∧ (¬ (env.new_method_call = true ∧ env.append_args = true ∧ env.send_with_reply = true) →
        (∀ c d f, SendEvent.set_notify c d f ∉
          (bluetooth_send_with_reply env path interface method cb user_data free_func timeout args).2)
        ∧ (∀ f d, free_func = some f → user_data = some d →
            ∃ before after,
              (bluetooth_send_with_reply env path interface method cb user_data free_func timeout
                args).2 = before ++ SendEvent.free_func f d :: after
              ∧ (∀ f' d', SendEvent.free_func f' d' ∉ before)
              ∧ (∀ f' d', SendEvent.free_func f' d' ∉ after))
        ∧ (free_func = none ∨ user_data = none →
            ∀ f d, SendEvent.free_func f d ∉
              (bluetooth_send_with_reply env path interface method cb user_data free_func timeout
                args).2))
    ∧ (env.new_method_call = true ∧ env.append_args = true ∧ env.send_with_reply = true →
        (∀ f d, SendEvent.free_func f d ∉
          (bluetooth_send_with_reply env path interface method cb user_data free_func timeout args).2)
        ∧ SendEvent.set_notify cb user_data free_func ∈
          (bluetooth_send_with_reply env path interface method cb user_data free_func timeout
            args).2) := by
  obtain ⟨m, a, s⟩ := env
  cases m <;> cases a <;> cases s <;> cases free_func <;> cases user_data <;>
    simp [bluetooth_send_with_reply, send_fail, ENOMEM, EIO] <;>
    first
      | done
      | (refine ⟨[SendEvent.ofono_error], [], ?_⟩; simp; done)
      | (refine ⟨[], [SendEvent.message_unref], ?_⟩; simp; done)
      | (refine ⟨[SendEvent.connection_send_with_reply path interface method args
          (scale_timeout timeout), SendEvent.ofono_error], [SendEvent.message_unref], ?_⟩
         simp)

theorem scale_timeout_nonpos (t : Int) (h : t ≤ 0) : scale_timeout t = t := by
  unfold scale_timeout
  rw [if_neg (by omega)]

theorem scale_timeout_small (t : Int) (h0 : 0 < t) (h1 : t ≤ 2147483) :
    scale_timeout t = 1000 * t := by
  unfold scale_timeout wrap32
  rw [if_pos (by omega)]
  norm_num
  omega

theorem scale_timeout_large (t : Int) (h1 : 2147483 < t) (h2 : t < 2 ^ 31) :
    scale_timeout t ≠ 1000 * t := by
  unfold scale_timeout wrap32
  rw [if_pos (by omega)]
  norm_num at h2 ⊢
  omega

/-- The wrapped product for a timeout above 2147483: `1000 * t` less a positive
multiple of `2 ^ 32`, and again a 32-bit signed `int`. -/
theorem scale_timeout_wrapped (t : Int) (h1 : 2147483 < t) (h2 : t < 2 ^ 31) :
    ∃ k : Int, 1 ≤ k ∧ scale_timeout t = 1000 * t - k * 2 ^ 32
      ∧ -2 ^ 31 ≤ scale_timeout t ∧ scale_timeout t < 2 ^ 31 := by
  have hs : scale_timeout t = (t * 1000 + 2 ^ 31) % 2 ^ 32 - 2 ^ 31 := by
    unfold scale_timeout wrap32
    rw [if_pos (by omega)]
  rw [hs]
  refine ⟨(t * 1000 + 2 ^ 31) / 2 ^ 32, ?_, ?_, ?_, ?_⟩ <;>
    (norm_num at h2 ⊢
     omega)

/-- C9, as the code has it: for a timeout `t` that is a 32-bit signed `int` and a
call that reaches the transport (message built, arguments encoded), the timeout
handed to `dbus_connection_send_with_reply` is `t` itself when `t <= 0`, exactly
`1000 * t` when `0 < t <= 2147483`, and when `t > 2147483` the 32-bit
multiplication wraps around: the value handed is not `1000 * t` but `1000 * t`
less a positive multiple of `2 ^ 32`, the one that is a 32-bit signed `int`. -/
theorem bluetooth_send_with_reply_timeout {κ υ φ : Type} (env : DBusEnv)
    (path interface method : String) (cb : κ) (user_data : Option υ) (free_func : Option φ)
    (t : Int) (args : List DBusValue) (hint : -2 ^ 31 ≤ t ∧ t < 2 ^ 31)
    (hmsg : env.new_method_call = true) (henc : env.append_args = true) :
    (∀ x, SendEvent.connection_send_with_reply path interface method args x ∈
        (bluetooth_send_with_reply env path interface method cb user_data free_func t args).2
        ↔ x = scale_timeout t)
    ∧ (t ≤ 0 → scale_timeout t = t)
    ∧ (0 < t → t ≤ 2147483 → scale_timeout t = 1000 * t)
    ∧ (2147483 < t → scale_timeout t ≠ 1000 * t)
    ∧ (2147483 < t → ∃ k : Int, 1 ≤ k ∧ scale_timeout t = 1000 * t - k * 2 ^ 32
        ∧ -2 ^ 31 ≤ scale_timeout t ∧ scale_timeout t < 2 ^ 31) := by
  refine ⟨?_, scale_timeout_nonpos t, scale_timeout_small t,
    fun h => scale_timeout_large t h hint.2, fun h => scale_timeout_wrapped t h hint.2⟩
  intro x
  obtain ⟨m, a, s⟩ := env
  simp only at hmsg henc
  subst hmsg henc
  cases s <;> cases free_func <;> cases user_data <;>
    simp [bluetooth_send_with_reply, send_fail]

/-- Witness for C9 as amended: a 15 second timeout reaches the transport as
15000 milliseconds. -/
theorem bluetooth_send_with_reply_timeout_witness :
    SendEvent.connection_send_with_reply "/" "org.bluez.Manager" "GetProperties" [] 15000 ∈
      (bluetooth_send_with_reply ⟨true, true, true⟩ "/" "org.bluez.Manager" "GetProperties"
        "manager_properties_cb" (none : Option String) (none : Option String) 15 []).2 := by
  have h := bluetooth_send_with_reply_timeout ⟨true, true, true⟩ "/" "org.bluez.Manager"
    "GetProperties" "manager_properties_cb" (none : Option String) (none : Option String) 15 []
    (by decide) rfl rfl
  exact (h.1 15000).mpr (h.2.2.1 (by decide) (by decide)).symm

/-- Counterexample to C9 as stated: the timeout 2147484 is a positive 32-bit
`int`, and the transport is handed -2147483296, not 2147484000. -/
theorem bluetooth_send_with_reply_timeout_wraps :
    (0 : Int) < 2147484 ∧ (2147484 : Int) < 2 ^ 31
    ∧ SendEvent.connection_send_with_reply "/" "org.bluez.Manager" "GetProperties" []
        (-2147483296) ∈
      (bluetooth_send_with_reply ⟨true, true, true⟩ "/" "org.bluez.Manager" "GetProperties"
        "manager_properties_cb" (none : Option String) (none : Option String) 2147484 []).2
    ∧ SendEvent.connection_send_with_reply "/" "org.bluez.Manager" "GetProperties" []
        (1000 * 2147484) ∉
      (bluetooth_send_with_reply ⟨true, true, true⟩ "/" "org.bluez.Manager" "GetProperties"
        "manager_properties_cb" (none : Option String) (none : Option String) 2147484 []).2 := by
  decide

/-! ## Theorems: property-bag decoder -/

theorem strcmp_eq_zero_iff (a b : String) : strcmp a b = 0 ↔ a = b := by
  unfold strcmp
  constructor
  · intro h
    by_cases hab : a.toList = b.toList
    · exact String.ext hab
    · rw [if_neg hab] at h
      split at h <;> simp at h
  · rintro rfl
    simp

theorem find_custom_eq_find {κ : Type} (l : List (property_handler κ)) (key : String) :
    g_slist_find_custom l key property_handler_compare
      = l.find? (fun h => decide (h.property = key)) := by
  unfold g_slist_find_custom property_handler_compare
  congr 1
  funext h
  by_cases hk : h.property = key
  · simp [hk, (strcmp_eq_zero_iff _ _).mpr]
  · have : strcmp h.property key ≠ 0 := fun e => hk ((strcmp_eq_zero_iff _ _).mp e)
    simp [hk, this]

theorem foldl_prepend {α : Type} (l acc : List α) :
    l.foldl (fun l a => a :: l) acc = l.reverse ++ acc := by
  induction l generalizing acc with
  | nil => rfl
  | cons a t ih => simp [ih]

/-- The handler the linear search of the decoder returns for `key`: the last one
of the supplied list that carries the name. -/
theorem find_reverse_last {κ : Type} (pre post : List (property_handler κ))
    (h : property_handler κ) (hpost : ∀ h' ∈ post, h'.property ≠ h.property) :
    g_slist_find_custom ((pre ++ h :: post).foldl (fun l a => a :: l) []) h.property
      property_handler_compare = some h := by
  rw [find_custom_eq_find, foldl_prepend]
  simp only [List.append_nil, List.reverse_append, List.reverse_cons, List.append_assoc,
    List.singleton_append]
  rw [List.find?_append]
  have hnone : post.reverse.find? (fun a => decide (a.property = h.property)) = none := by
    rw [List.find?_eq_none]
    intro x hx
    simpa using hpost x (List.mem_reverse.mp hx)
  rw [hnone]
  simp

theorem find_reverse_none {κ : Type} (args : List (property_handler κ)) (key : String)
    (hno : ∀ h ∈ args, h.property ≠ key) :
    g_slist_find_custom (args.foldl (fun l a => a :: l) []) key property_handler_compare
      = none := by
  rw [find_custom_eq_find, foldl_prepend, List.append_nil, List.find?_eq_none]
  intro x hx
  simpa using hno x (List.mem_reverse.mp hx)

theorem nodup_split {κ : Type} (args : List (property_handler κ))
    (hnames : (args.map (fun h => h.property)).Nodup) (h : property_handler κ) (hmem : h ∈ args) :
    ∃ pre post, args = pre ++ h :: post ∧ ∀ h' ∈ post, h'.property ≠ h.property := by
  obtain ⟨pre, post, rfl⟩ := List.append_of_mem hmem
  refine ⟨pre, post, rfl, ?_⟩
  intro h' hh' heq
  rw [List.map_append, List.map_cons, List.nodup_append] at hnames
  have := (List.nodup_cons.mp hnames.2.1).1
  exact this (List.mem_map.mpr ⟨h', hh', heq⟩)

/-- C3: for handlers with pairwise distinct names, the decoder calls made by
`bluetooth_parse_properties` are: none when the reply has no arguments or its
first argument is not an array of dict entries; otherwise the entries are walked
in order, an entry (string key, variant) whose key is no handler's name causes no
call and the walk goes on, an entry whose key is a handler's name causes exactly
one call, of that handler with the value inside the variant, and the walk goes
on, and an entry whose key is not a string or whose value is not a variant ends
the walk with no call for it or for any later entry. -/
theorem bluetooth_parse_properties_calls {κ : Type} (args : List (property_handler κ))
    (hnames : (args.map (fun h => h.property)).Nodup) :
    (∀ t en, bluetooth_parse_properties ⟨t, en, []⟩ args = [])
    ∧ (∀ t en v more, bluetooth_parse_properties ⟨t, en, .value v :: more⟩ args = [])
    ∧ (∀ t en more, bluetooth_parse_properties ⟨t, en, .dict [] :: more⟩ args = [])
    ∧ (∀ t en more key value rest, (∀ h ∈ args, h.property ≠ key) →
        bluetooth_parse_properties ⟨t, en, .dict (⟨.string key, .variant value⟩ :: rest) :: more⟩ args
          = bluetooth_parse_properties ⟨t, en, .dict rest :: more⟩ args)
    ∧ (∀ t en more key value rest, ∀ h ∈ args, h.property = key →
        bluetooth_parse_properties ⟨t, en, .dict (⟨.string key, .variant value⟩ :: rest) :: more⟩ args
          = (h, value) :: bluetooth_parse_properties ⟨t, en, .dict rest :: more⟩ args)
    ∧ (∀ t en more entry rest,
        (∀ key, entry.key ≠ .string key) ∨ (∀ value, entry.value ≠ .variant value) →
        bluetooth_parse_properties ⟨t, en, .dict (entry :: rest) :: more⟩ args = []) := by
  refine ⟨fun _ _ => rfl, ?_, fun _ _ _ => rfl, ?_, ?_, ?_⟩
  · intro t en v more
    cases v <;> rfl
  · intro t en more key value rest hno
    simp only [bluetooth_parse_properties, parse_properties_loop, find_reverse_none args key hno]
  · intro t en more key value rest h hmem hkey
    obtain ⟨pre, post, rfl, hpost⟩ := nodup_split args hnames h hmem
    subst hkey
    simp only [bluetooth_parse_properties, parse_properties_loop, find_reverse_last pre post h hpost]
  · intro t en more entry rest hbad
    obtain ⟨key, value⟩ := entry
    rcases hbad with hk | hv
    · cases key with
      | string k => exact absurd rfl (hk k)
      | _ => rfl
    · cases key with
      | string k =>
        cases value with
        | variant v => exact absurd rfl (hv v)
        | plain v => rfl
      | _ => rfl

/-- Witness for C3: handlers `Address` and `Alias`; the `Address` entry of the
reply calls the `Address` handler once, with the value inside the variant. -/
theorem bluetooth_parse_properties_calls_witness :
    bluetooth_parse_properties
        ⟨.method_return, none,
          [.dict [⟨.string "Address", .variant (.string "00:11:22:33:44:55")⟩,
                  ⟨.string "Name", .variant (.string "hci0")⟩]]⟩
        [(⟨"Address", "parse_string(&addr)"⟩ : property_handler String),
         ⟨"Alias", "parse_string(&alias)"⟩]
      = (⟨"Address", "parse_string(&addr)"⟩, .string "00:11:22:33:44:55")
        :: bluetooth_parse_properties
            ⟨.method_return, none, [.dict [⟨.string "Name", .variant (.string "hci0")⟩]]⟩
            [(⟨"Address", "parse_string(&addr)"⟩ : property_handler String),
             ⟨"Alias", "parse_string(&alias)"⟩] :=
  (bluetooth_parse_properties_calls
      [(⟨"Address", "parse_string(&addr)"⟩ : property_handler String),
       ⟨"Alias", "parse_string(&alias)"⟩] (by decide)).2.2.2.2.1
    .method_return none [] "Address" (.string "00:11:22:33:44:55")
    [⟨.string "Name", .variant (.string "hci0")⟩]
    ⟨"Address", "parse_string(&addr)"⟩ (by simp) rfl

theorem loop_call_is_last {κ : Type} (args : List (property_handler κ)) (h : property_handler κ)
    (value : DBusValue) (entries : List DictEntry)
    (hmem : (h, value) ∈ parse_properties_loop (args.foldl (fun l a => a :: l) []) entries) :
    ∃ pre post, args = pre ++ h :: post ∧ ∀ h' ∈ post, h'.property ≠ h.property := by
  induction entries with
  | nil => simp [parse_properties_loop] at hmem
  | cons entry rest ih =>
    obtain ⟨key, val⟩ := entry
    cases key with
    | string k =>
      cases val with
      | variant v =>
        simp only [parse_properties_loop] at hmem
        cases hfind : g_slist_find_custom (args.foldl (fun l a => a :: l) []) k
            property_handler_compare with
        | none =>
          rw [hfind] at hmem
          exact ih hmem
        | some found =>
          rw [hfind] at hmem
          rcases List.mem_cons.mp hmem with heq | htail
          · have hfh : found = h := (Prod.mk.inj heq).1.symm
            subst hfh
            rw [find_custom_eq_find, foldl_prepend, List.append_nil, List.find?_eq_some] at hfind
            obtain ⟨hp, as, bs, hsplit, has⟩ := hfind
            have hk : found.property = k := by simpa using hp
            refine ⟨bs.reverse, as.reverse, ?_, ?_⟩
            · have := congrArg List.reverse hsplit
              simpa using this
            · intro h' hh'
              have := has h' (List.mem_reverse.mp hh')
              rw [hk]
              simpa using this
          · exact ih htail
      | plain v => simp [parse_properties_loop] at hmem
    | _ => simp [parse_properties_loop] at hmem

/-- C10: when several handlers carry one name, an entry (string key, variant)
whose key is that name calls exactly the handler supplied last with the name,
with the value inside the variant, and the walk goes on (as it does, without a
call, past an entry whose key is no handler's name); and every call that
`bluetooth_parse_properties` makes, for any reply, is of a handler after which no
handler of the supplied list has the same name, so a handler supplied before
another of its name is never called. -/
theorem bluetooth_parse_properties_last_wins {κ : Type} (args : List (property_handler κ)) :
    (∀ t en more key value rest pre h post, args = pre ++ h :: post → h.property = key →
        (∀ h' ∈ post, h'.property ≠ key) →
        bluetooth_parse_properties ⟨t, en, .dict (⟨.string key, .variant value⟩ :: rest) :: more⟩ args
          = (h, value) :: bluetooth_parse_properties ⟨t, en, .dict rest :: more⟩ args)
    ∧ (∀ t en more key value rest, (∀ h ∈ args, h.property ≠ key) →
        bluetooth_parse_properties ⟨t, en, .dict (⟨.string key, .variant value⟩ :: rest) :: more⟩ args
          = bluetooth_parse_properties ⟨t, en, .dict rest :: more⟩ args)
    ∧ (∀ reply h value, (h, value) ∈ bluetooth_parse_properties reply args →
        ∃ pre post, args = pre ++ h :: post ∧ ∀ h' ∈ post, h'.property ≠ h.property) := by
  refine ⟨?_, ?_, ?_⟩
  · intro t en more key value rest pre h post hargs hkey hpost
    subst hargs
    subst hkey
    simp only [bluetooth_parse_properties, parse_properties_loop, find_reverse_last pre post h hpost]
  · intro t en more key value rest hno
    simp only [bluetooth_parse_properties, parse_properties_loop, find_reverse_none args key hno]
  · intro reply h value hmem
    obtain ⟨t, en, a⟩ := reply
    cases a with
    | nil => simp [bluetooth_parse_properties] at hmem
    | cons first more =>
      cases first with
      | dict entries => exact loop_call_is_last args h value entries hmem
      | value v => cases v <;> simp [bluetooth_parse_properties] at hmem

/-- Witness for C10: two handlers named `Address`; the `Address` entry calls the
one supplied last. -/
theorem bluetooth_parse_properties_last_wins_witness :
    bluetooth_parse_properties
        ⟨.method_return, none, [.dict [⟨.string "Address", .variant (.string "00:11")⟩]]⟩
        [(⟨"Address", "first"⟩ : property_handler String), ⟨"Alias", "other"⟩,
         ⟨"Address", "last"⟩]
      = (⟨"Address", "last"⟩, .string "00:11")
        :: bluetooth_parse_properties ⟨.method_return, none, [.dict []]⟩
            [(⟨"Address", "first"⟩ : property_handler String), ⟨"Alias", "other"⟩,
             ⟨"Address", "last"⟩] :=
  (bluetooth_parse_properties_last_wins
      [(⟨"Address", "first"⟩ : property_handler String), ⟨"Alias", "other"⟩,
       ⟨"Address", "last"⟩]).1
    .method_return none [] "Address" (.string "00:11") []
    [⟨"Address", "first"⟩, ⟨"Alias", "other"⟩] ⟨"Address", "last"⟩ [] rfl rfl (by simp)

/-! ## Theorems: device reply -/

theorem has_uuid_loop_string (uuid : String) (elems : List String) (profiles : Nat) :
    has_uuid_loop uuid .string elems profiles
      = if elems.any (fun u => strcasecmp u uuid == 0) then profiles ||| HFP_AG else profiles := by
  induction elems generalizing profiles with
  | nil => simp [has_uuid_loop]
  | cons u rest ih =>
    by_cases hu : strcasecmp u uuid = 0
    · simp only [has_uuid_loop, if_true, hu, ih, List.any_cons, beq_self_eq_true, Bool.true_or]
      split <;> simp [Nat.or_assoc, HFP_AG]
    · simp [has_uuid_loop, hu, ih]

theorem has_uuid_loop_other (uuid : String) (kind : ElemKind) (hk : kind ≠ .string)
    (elems : List String) (profiles : Nat) :
    has_uuid_loop uuid kind elems profiles = profiles := by
  cases elems with
  | nil => rfl
  | cons u rest => simp [has_uuid_loop, hk]

theorem has_uuid_flag (uuid : String) (v : DBusValue) :
    (has_uuid uuid v 0 &&& HFP_AG != 0) = lists_uuid uuid v := by
  cases v with
  | array kind elems =>
    cases kind with
    | string =>
      simp only [has_uuid, lists_uuid, has_uuid_loop_string]
      split <;> simp_all [HFP_AG]
    | object_path => simp [has_uuid, lists_uuid, has_uuid_loop_other, HFP_AG]
    | other => simp [has_uuid, lists_uuid, has_uuid_loop_other, HFP_AG]
  | _ => simp [has_uuid, lists_uuid, HFP_AG]

theorem well_formed_iff (e : DictEntry) :
    e.well_formed = true ↔ ∃ k v, e = ⟨.string k, .variant v⟩ := by
  obtain ⟨key, value⟩ := e
  cases key <;> cases value <;> simp [DictEntry.well_formed]

theorem entries_property_cons (k : String) (v : DBusValue) (rest : List DictEntry)
    (name : String) :
    entries_property (⟨.string k, .variant v⟩ :: rest) name
      = if k = name then some v else entries_property rest name := by
  by_cases h : k = name
  · simp [entries_property, List.find?_cons, h]
  · simp [entries_property, List.find?_cons, h]

theorem entries_property_absent (rest : List DictEntry) (k : String)
    (h : ∀ e ∈ rest, e.key ≠ .string k) : entries_property rest k = none := by
  have : rest.find? (fun e => e.key == .string k) = none := by
    rw [List.find?_eq_none]
    intro e he
    simpa using h e he
  simp [entries_property, this]

theorem device_find (uuid key : String) :
    g_slist_find_custom ((device_handlers uuid).foldl (fun l a => a :: l) []) key
        property_handler_compare
      = (device_handlers uuid).find? (fun h => decide (h.property = key)) := by
  rw [find_custom_eq_find]
  by_cases h1 : "UUIDs" = key
  · subst h1; simp [device_handlers, List.find?_cons]
  · by_cases h2 : "Adapter" = key
    · subst h2; simp [device_handlers, List.find?_cons]
    · by_cases h3 : "Address" = key
      · subst h3; simp [device_handlers, List.find?_cons]
      · by_cases h4 : "Alias" = key
        · subst h4; simp [device_handlers, List.find?_cons]
        · simp [device_handlers, List.find?_cons, h1, h2, h3, h4]

/-- The locals of `device_properties_cb` after the decoder has walked a property
bag with pairwise distinct keys: each holds what its decoder makes of the
property of its name. -/
theorem device_locals (uuid : String) (entries : List DictEntry)
    (hwf : ∀ e ∈ entries, e.well_formed = true)
    (hkeys : (entries.filterMap DictEntry.name).Nodup) (l : DeviceLocals) :
    run_handlers (parse_properties_loop
        ((device_handlers uuid).foldl (fun l a => a :: l) []) entries) l
      = ⟨(match entries_property entries "UUIDs" with
            | some v => has_uuid uuid v l.have_uuid
            | none => l.have_uuid),
         (match entries_property entries "Adapter" with
            | some v => parse_string v l.adapter
            | none => l.adapter),
         (match entries_property entries "Address" with
            | some v => parse_string v l.device_addr
            | none => l.device_addr),
         (match entries_property entries "Alias" with
            | some v => parse_string v l.alias_
            | none => l.alias_)⟩ := by
  induction entries generalizing l with
  | nil => simp [parse_properties_loop, run_handlers, entries_property]
  | cons e rest ih =>
    obtain ⟨k, v, rfl⟩ := (well_formed_iff e).mp (hwf e (List.mem_cons_self _ _))
    have hrest : ∀ e ∈ rest, e.well_formed = true := fun e he => hwf e (List.mem_cons_of_mem _ he)
    rw [List.filterMap_cons_some (by rfl : DictEntry.name ⟨.string k, .variant v⟩ = some k),
      List.nodup_cons] at hkeys
    have habs : entries_property rest k = none := by
      apply entries_property_absent
      intro e he heq
      exact hkeys.1 (List.mem_filterMap.mpr ⟨e, he, by simp [DictEntry.name, heq]⟩)
    have ih := fun l => ih hrest hkeys.2 l
    simp only [parse_properties_loop, device_find, entries_property_cons]
    by_cases h1 : k = "UUIDs"
    · subst h1
      simp [device_handlers, List.find?_cons, run_handlers] at ih ⊢
      simp [ih, habs]
    · by_cases h2 : k = "Adapter"
      · subst h2
        simp [device_handlers, List.find?_cons, run_handlers] at ih ⊢
        simp [ih, habs]
      · by_cases h3 : k = "Address"
        · subst h3
          simp [device_handlers, List.find?_cons, run_handlers] at ih ⊢
          simp [ih, habs]
        · by_cases h4 : k = "Alias"
          · subst h4
            simp [device_handlers, List.find?_cons, run_handlers] at ih ⊢
            simp [ih, habs]
          · have e1 : ¬ "UUIDs" = k := fun e => h1 e.symm
            have e2 : ¬ "Adapter" = k := fun e => h2 e.symm
            have e3 : ¬ "Address" = k := fun e => h3 e.symm
            have e4 : ¬ "Alias" = k := fun e => h4 e.symm
            simp [device_handlers, List.find?_cons, run_handlers, h1, h2, h3, h4, e1, e2, e3, e4]
              at ih ⊢
            simp [ih]

theorem parse_string_none (v : DBusValue) : parse_string v none = string_value v := by
  cases v <;> rfl

theorem entries_property_malformed (entries : List DictEntry)
    (hbad : ∀ e ∈ entries, ¬ e.well_formed = true) (name : String) :
    entries_property entries name = none := by
  unfold entries_property
  cases hfind : entries.find? (fun e => e.key == .string name) with
  | none => rfl
  | some e =>
    have hmem := List.mem_of_find?_eq_some hfind
    have hkey := List.find?_some hfind
    obtain ⟨key, value⟩ := e
    have hk : key = .string name := by simpa using hkey
    subst hk
    cases value with
    | variant v => exact absurd (by simp [DictEntry.well_formed]) (hbad _ hmem)
    | plain v => rfl

theorem loop_malformed {κ : Type} (hs : List (property_handler κ)) (entries : List DictEntry)
    (hbad : ∀ e ∈ entries, ¬ e.well_formed = true) : parse_properties_loop hs entries = [] := by
  cases entries with
  | nil => rfl
  | cons e rest =>
    have := hbad e (List.mem_cons_self _ _)
    obtain ⟨key, value⟩ := e
    cases key <;> cases value <;> simp_all [parse_properties_loop, DictEntry.well_formed]

/-- What `device_properties_cb` does once its locals are known, for a live
registry and cache. -/
theorem device_dispatch {φ : Type} (uuid : String)
    (registry : List (String × Option (bluetooth_profile φ)))
    (cache : List (String × Option String)) (reply : DBusMessage) (path : String)
    (herr : reply.type ≠ .error) :
    device_properties_cb uuid ⟨.live registry, .live cache⟩ reply path
      = .ok (
        let locals := run_handlers (bluetooth_parse_properties reply (device_handlers uuid))
          ⟨0, none, none, none⟩
        match (locals.have_uuid &&& HFP_AG != 0), locals.device_addr,
          locals.adapter.bind (table_lookup cache),
          (table_lookup registry uuid).bind (fun profile => profile.create) with
        | true, some device_addr, some adapter_addr, some create =>
          [Event.create create path device_addr adapter_addr locals.alias_]
        | _, _, _, _ => []) := by
  have h1 : dbus_message_is_error reply DBUS_ERROR_SERVICE_UNKNOWN = false := by
    simp [dbus_message_is_error, herr]
  have h2 : (reply.type == DBusMessageType.error) = false := by simpa using herr
  simp only [device_properties_cb, h1, h2]
  generalize run_handlers (bluetooth_parse_properties reply (device_handlers uuid))
    ⟨0, none, none, none⟩ = locals
  obtain ⟨hu, ad, da, al⟩ := locals
  rcases ad with _ | ad <;> rcases da with _ | da <;> cases hflag : (hu &&& HFP_AG != 0) <;>
    simp [g_hash_table_lookup, hflag, bind, Except.bind, pure, Except.pure]
  cases table_lookup cache ad with
  | none => rfl
  | some adapter_addr =>
    cases table_lookup registry uuid with
    | none => rfl
    | some profile =>
      obtain ⟨create⟩ := profile
      cases create <;> rfl

/-- C2, as the code has it: for a live registry and cache and a device reply
whose dict entries have pairwise distinct keys and are all (string, variant)
pairs or none of them is, `device_properties_cb` calls `create` exactly once, with
the device path, the reply's `Address`, the cached address of the reply's
`Adapter` and the reply's `Alias` (absent when there is none or it is neither a
string nor an object path), when the reply is not an error, its `UUIDs` is an
array of strings with an element equal to the hands-free audio-gateway UUID
ignoring case, its `Address` is a string or an object path, its `Adapter` is a
string or an object path that the cache maps to an address, and the registry maps
the UUID to a descriptor with a `create` handler; otherwise it makes no call. -/
theorem device_properties_cb_create {φ : Type} (uuid : String)
    (registry : List (String × Option (bluetooth_profile φ)))
    (cache : List (String × Option String)) (reply : DBusMessage) (path : String)
    (hkeys : ((reply_entries reply).filterMap DictEntry.name).Nodup)
    (hshape : (∀ e ∈ reply_entries reply, e.well_formed = true)
      ∨ (∀ e ∈ reply_entries reply, ¬ e.well_formed = true)) :
    device_properties_cb uuid ⟨.live registry, .live cache⟩ reply path
      = .ok (expected_create uuid registry cache reply path) := by
  by_cases herr : reply.type = .error
  · have h2 : (reply.type == DBusMessageType.error) = true := by simpa using herr
    simp only [device_properties_cb, expected_create, if_pos herr, h2]
    split <;> rfl
  · rw [device_dispatch uuid registry cache reply path herr]
    simp only [expected_create, if_neg herr, reply_property]
    have hloc : run_handlers (bluetooth_parse_properties reply (device_handlers uuid))
          ⟨0, none, none, none⟩
        = ⟨(match entries_property (reply_entries reply) "UUIDs" with
              | some v => has_uuid uuid v 0
              | none => 0),
           (entries_property (reply_entries reply) "Adapter").bind string_value,
           (entries_property (reply_entries reply) "Address").bind string_value,
           (entries_property (reply_entries reply) "Alias").bind string_value⟩ := by
      have hbpp : bluetooth_parse_properties reply (device_handlers uuid)
          = parse_properties_loop ((device_handlers uuid).foldl (fun l a => a :: l) [])
              (reply_entries reply) := by
        obtain ⟨t, en, a⟩ := reply
        cases a with
        | nil => rfl
        | cons first more =>
          cases first with
          | dict entries => rfl
          | value v => cases v <;> rfl
      rw [hbpp]
      rcases hshape with hwf | hbad
      · rw [device_locals uuid _ hwf hkeys]
        congr 1 <;> (split <;> simp_all [parse_string_none])
      · rw [loop_malformed _ _ hbad]
        simp [run_handlers, entries_property_malformed _ hbad]
    rw [hloc]
    simp only []
    cases hu : entries_property (reply_entries reply) "UUIDs" with
    | none => simp [HFP_AG]
    | some v =>
      simp only [has_uuid_flag]
      cases hl : lists_uuid uuid v <;>
        cases (entries_property (reply_entries reply) "Address").bind string_value <;>
        cases ((entries_property (reply_entries reply) "Adapter").bind string_value).bind
          (table_lookup cache) <;>
        cases (table_lookup registry uuid).bind (fun profile => profile.create) <;> simp [hl]

/-- Witness for C2 as amended, at the end-to-end scenario of the specification:
adapter `/a0` with cached address `00:11:22:33:44:55`, device `/a0/d0` reporting
the UUID, its address and its adapter and no alias, and a descriptor registered
for the UUID. -/
theorem device_properties_cb_create_witness :
    device_properties_cb "hfp-ag-uuid"
        (⟨.live [("hfp-ag-uuid", some ⟨some "create"⟩)],
          .live [("/a0", some "00:11:22:33:44:55")]⟩ : State String)
        ⟨.method_return, none,
          [.dict [⟨.string "UUIDs", .variant (.array .string ["hfp-ag-uuid"])⟩,
                  ⟨.string "Address", .variant (.string "AA:BB:CC:DD:EE:FF")⟩,
                  ⟨.string "Adapter", .variant (.object_path "/a0")⟩]]⟩
        "/a0/d0"
      = .ok [Event.create "create" "/a0/d0" "AA:BB:CC:DD:EE:FF" "00:11:22:33:44:55" none] :=
  (device_properties_cb_create "hfp-ag-uuid" [("hfp-ag-uuid", some ⟨some "create"⟩)]
    [("/a0", some "00:11:22:33:44:55")]
    ⟨.method_return, none,
      [.dict [⟨.string "UUIDs", .variant (.array .string ["hfp-ag-uuid"])⟩,
              ⟨.string "Address", .variant (.string "AA:BB:CC:DD:EE:FF")⟩,
              ⟨.string "Adapter", .variant (.object_path "/a0")⟩]]⟩
    "/a0/d0" (by decide) (by decide)).trans (by decide)

/-- Counterexample to C2 as stated: the `Address` property of the reply is an
object path, not a string, and `create` is called all the same, with the text of
the object path as the device address. -/
theorem device_properties_cb_object_path_address :
    reply_property
        ⟨.method_return, none,
          [.dict [⟨.string "UUIDs", .variant (.array .string ["hfp-ag-uuid"])⟩,
                  ⟨.string "Address", .variant (.object_path "/a0/d0/addr")⟩,
                  ⟨.string "Adapter", .variant (.object_path "/a0")⟩]]⟩
        "Address" = some (.object_path "/a0/d0/addr")
    ∧ device_properties_cb "hfp-ag-uuid"
        (⟨.live [("hfp-ag-uuid", some ⟨some "create"⟩)],
          .live [("/a0", some "00:11:22:33:44:55")]⟩ : State String)
        ⟨.method_return, none,
          [.dict [⟨.string "UUIDs", .variant (.array .string ["hfp-ag-uuid"])⟩,
                  ⟨.string "Address", .variant (.object_path "/a0/d0/addr")⟩,
                  ⟨.string "Adapter", .variant (.object_path "/a0")⟩]]⟩
        "/a0/d0"
      = .ok [Event.create "create" "/a0/d0" "/a0/d0/addr" "00:11:22:33:44:55" none] := by
  decide

/-! ## Theorems: profile registry and adapter address cache -/

/-- From a state that satisfies the lifecycle invariant, `bluetooth_register_uuid`
returns 0 and leaves both tables live, with the uuid mapped to the descriptor;
from an uninitialised state the new cache is empty and the new mapping holds
this one entry. -/
theorem register_step {φ : Type} (st : State φ) (hinv : st.invariant) (uuid : String)
    (profile : Option (bluetooth_profile φ)) :
    ∃ registry cache events,
      bluetooth_register_uuid st uuid profile = .ok (0, ⟨.live registry, .live cache⟩, events)
      ∧ registry ≠ [] ∧ table_lookup registry uuid = profile
      ∧ (st.uuid_hash = .null → registry = [(uuid, profile)] ∧ cache = []) := by
  obtain ⟨uh, ah⟩ := st
  cases uh with
  | null =>
    refine ⟨[(uuid, profile)], [], _, rfl, by simp, by simp [table_lookup], fun _ => ⟨rfl, rfl⟩⟩
  | live registry =>
    cases ah with
    | live cache =>
      refine ⟨(uuid, profile) :: registry.filter (fun e => e.1 != uuid), cache, _, rfl, by simp,
        by simp [table_lookup], fun h => by simp at h⟩
    | null => simp [State.invariant] at hinv
    | freed => simp [State.invariant] at hinv
  | freed => cases ah <;> simp [State.invariant] at hinv

/-- The result of `bluetooth_unregister_uuid` on live tables: when an entry
remains, the mapping without the uuid and the cache as it was; when none remains,
both tables released and the mapping pointer reset, the cache pointer left
stale. -/
theorem unregister_live {φ : Type} (registry : List (String × Option (bluetooth_profile φ)))
    (cache : List (String × Option String)) (uuid : String) :
    bluetooth_unregister_uuid ⟨.live registry, .live cache⟩ uuid
      = .ok (if (registry.filter (fun e => e.1 != uuid)).length = 0 then ⟨.null, .freed⟩
             else ⟨.live (registry.filter (fun e => e.1 != uuid)), .live cache⟩) := by
  by_cases h : (registry.filter (fun e => e.1 != uuid)).length = 0
  · simp only [bluetooth_unregister_uuid, g_hash_table_remove, g_hash_table_size,
      g_hash_table_destroy, bind, Except.bind, pure, Except.pure, h, if_pos]
    rfl
  · simp only [bluetooth_unregister_uuid, g_hash_table_remove, g_hash_table_size,
      bind, Except.bind, pure, Except.pure, h, if_neg, not_false_eq_true]
    have : ((registry.filter (fun e => e.1 != uuid)).length != 0) = true := by simpa using h
    simp [this]

theorem unregister_invariant {φ : Type} (st st2 : State φ) (hinv : st.invariant) (uuid : String)
    (h : bluetooth_unregister_uuid st uuid = .ok st2) : st2.invariant := by
  obtain ⟨uh, ah⟩ := st
  cases uh with
  | null =>
    cases ah with
    | null =>
      have : st2 = ⟨.null, .null⟩ := by
        simpa [bluetooth_unregister_uuid, g_hash_table_remove, g_hash_table_size,
          g_hash_table_destroy, bind, Except.bind, pure, Except.pure, eq_comm] using h
      subst this
      simp [State.invariant]
    | live cache => simp [State.invariant] at hinv
    | freed =>
      simp [bluetooth_unregister_uuid, g_hash_table_remove, g_hash_table_size,
          g_hash_table_destroy, bind, Except.bind, pure, Except.pure] at h
  | live registry =>
    cases ah with
    | live cache =>
      rw [unregister_live] at h
      have := (Except.ok.inj h).symm
      subst this
      split
      · simp [State.invariant]
      · rename_i hlen
        simpa [State.invariant, List.length_eq_zero] using hlen
    | null => simp [State.invariant] at hinv
    | freed => simp [State.invariant] at hinv
  | freed => cases ah <;> simp [State.invariant] at hinv

/-- The lifecycle invariant holds after every sequence of registration calls
that runs to its end. -/
theorem run_calls_invariant {φ : Type} (calls : List (Call φ)) :
    ∀ (st st2 : State φ), st.invariant → run_calls calls st = .ok st2 → st2.invariant := by
  induction calls with
  | nil =>
    intro st st2 hinv h
    have := Except.ok.inj h
    subst this
    exact hinv
  | cons c rest ih =>
    intro st st2 hinv h
    cases c with
    | register uuid profile =>
      obtain ⟨registry, cache, events, hreg, hne, -, -⟩ := register_step st hinv uuid profile
      simp only [run_calls, hreg] at h
      exact ih _ st2 (by simpa [State.invariant] using hne) h
    | unregister uuid =>
      cases hun : bluetooth_unregister_uuid st uuid with
      | error e => simp [run_calls, hun] at h
      | ok st1 =>
        simp only [run_calls, hun] at h
        exact ih st1 st2 (unregister_invariant st st1 hinv uuid hun) h

/-- The witness sequence of C4 runs to its end: register X, register Y,
unregister X, unregister Y leaves the mapping pointer null and the cache
released, and register Z then creates a new mapping and a new, empty cache. -/
theorem run_calls_lifecycle :
    run_calls [Call.register "X" (some ⟨some "d1"⟩), .register "Y" (some ⟨some "d2"⟩),
        .unregister "X"] (State.init : State String)
      = .ok ⟨.live [("Y", some ⟨some "d2"⟩)], .live []⟩
    ∧ run_calls [Call.register "X" (some ⟨some "d1"⟩), .register "Y" (some ⟨some "d2"⟩),
        .unregister "X", .unregister "Y"] (State.init : State String)
      = .ok ⟨.null, .freed⟩
    ∧ run_calls [Call.register "X" (some ⟨some "d1"⟩), .register "Y" (some ⟨some "d2"⟩),
        .unregister "X", .unregister "Y", .register "Z" (some ⟨some "d3"⟩)]
        (State.init : State String)
      = .ok ⟨.live [("Z", some ⟨some "d3"⟩)], .live []⟩ := by
  decide

/-- C4 at its failing input: register X, unregister X leaves the mapping pointer
null and the cache pointer stale, and a further unregister X then calls
`g_hash_table_destroy` on the released cache. -/
theorem run_calls_unregister_twice :
    run_calls [Call.register "X" (some ⟨some "d1"⟩), .unregister "X"]
        (State.init : State String) = .ok ⟨.null, .freed⟩
    ∧ run_calls [Call.register "X" (some ⟨some "d1"⟩), .unregister "X", .unregister "X"]
        (State.init : State String) = .error .use_after_free := by
  decide

/-- The frame of `bluetooth_unregister_uuid` on live tables: every other key
keeps its descriptor, and when the uuid is not a key of a non-empty mapping the
state is unchanged. -/
theorem unregister_frame {φ : Type} (registry : List (String × Option (bluetooth_profile φ)))
    (cache : List (String × Option String)) (uuid : String) :
    (∀ key, key ≠ uuid →
        table_lookup (registry.filter (fun e => e.1 != uuid)) key = table_lookup registry key)
    ∧ ((∀ e ∈ registry, e.1 ≠ uuid) → registry ≠ [] →
        bluetooth_unregister_uuid ⟨.live registry, .live cache⟩ uuid
          = .ok ⟨.live registry, .live cache⟩) := by
  constructor
  · intro key hkey
    unfold table_lookup
    congr 1
    rw [List.find?_filter]
    congr 1
    funext a
    by_cases h : a.1 = key
    · simp [h, hkey]
    · simp [h]
  · intro hno hne
    have hfilter : registry.filter (fun e => e.1 != uuid) = registry := by
      rw [List.filter_eq_self]
      intro e he
      simpa using hno e he
    rw [unregister_live, hfilter, if_neg (by simpa [List.length_eq_zero] using hne)]

/-- C5 at its failing input: after register X, unregister X the registry is
uninitialised and X is not a key; unregistering it again is not a no-op, the
call runs `g_hash_table_destroy` on the cache that the first unregister
released. -/
theorem unregister_after_teardown :
    run_calls [Call.register "X" (some ⟨some "d1"⟩), .unregister "X"]
        (State.init : State String) = .ok ⟨.null, .freed⟩
    ∧ bluetooth_unregister_uuid (⟨.null, .freed⟩ : State String) "X"
        = .error .use_after_free := by
  decide

/-! ## Theorems: adapter reply and late completions -/

/-- On a "service unknown" error reply `adapter_properties_cb` leaves the state
as it is and issues no device query. -/
theorem adapter_properties_cb_service_unknown {φ : Type} (st : State φ) (args : List DBusArg)
    (path : String) (addr : Option String) :
    adapter_properties_cb st ⟨.error, some DBUS_ERROR_SERVICE_UNKNOWN, args⟩ path addr
      = .ok (st, []) := by
  simp [adapter_properties_cb, dbus_message_is_error, pure, Except.pure]

/-- On any reply that is not a "service unknown" error and carries no dict
entries (another error reply, or a reply whose first argument is not an array of
entries) `adapter_properties_cb` issues no device query but stores the
indeterminate value of `addr` under the adapter path in a live cache. -/
theorem adapter_properties_cb_no_entries {φ : Type} (uuid_hash : TablePtr (bluetooth_profile φ))
    (cache : List (String × Option String)) (reply : DBusMessage) (path : String)
    (addr : Option String)
    (hunk : dbus_message_is_error reply DBUS_ERROR_SERVICE_UNKNOWN = false)
    (hnone : reply_entries reply = []) :
    adapter_properties_cb ⟨uuid_hash, .live cache⟩ reply path addr
      = .ok (⟨uuid_hash, .live ((path, addr) :: cache.filter (fun e => e.1 != path))⟩, []) := by
  have hbpp : ∀ {κ : Type} (hs : List (property_handler κ)),
      bluetooth_parse_properties reply hs = [] := by
    intro κ hs
    obtain ⟨t, en, a⟩ := reply
    cases a with
    | nil => rfl
    | cons first more =>
      cases first with
      | dict entries =>
        have : entries = [] := by simpa [reply_entries] using hnone
        subst this
        rfl
      | value v => cases v <;> rfl
  simp [adapter_properties_cb, hunk, hbpp, run_handlers, g_hash_table_insert, bind, Except.bind,
    pure, Except.pure]

/-- C7 at its failing input: the `/a0` query returns the error
`org.bluez.Error.Failed`; whatever the indeterminate value of the uninitialised
local `addr`, `adapter_properties_cb` inserts an entry for `/a0` into the empty
cache (and issues no device query). -/
theorem adapter_properties_cb_error_reply (addr : Option String) :
    adapter_properties_cb
        (⟨.live [("hfp-ag-uuid", some ⟨some "create"⟩)], .live []⟩ : State String)
        ⟨.error, some "org.bluez.Error.Failed", [.value (.string "Operation failed")]⟩
        "/a0" addr
      = .ok (⟨.live [("hfp-ag-uuid", some ⟨some "create"⟩)], .live [("/a0", addr)]⟩, []) := by
  rw [adapter_properties_cb_no_entries _ _ _ _ _ (by decide) (by decide)]
  rfl

/-- With the cache pointer stale, `adapter_properties_cb` runs
`g_hash_table_insert` on the released cache for every reply that is not a "service
unknown" error. -/
theorem adapter_properties_cb_stale {φ : Type} (uuid_hash : TablePtr (bluetooth_profile φ))
    (reply : DBusMessage) (path : String) (addr : Option String)
    (hunk : dbus_message_is_error reply DBUS_ERROR_SERVICE_UNKNOWN = false) :
    adapter_properties_cb ⟨uuid_hash, .freed⟩ reply path addr = .error .use_after_free := by
  simp [adapter_properties_cb, hunk, g_hash_table_insert, bind, Except.bind]

/-- With the mapping pointer null and the cache pointer stale,
`device_properties_cb` either looks up the released cache or makes no call: it
never calls a `create` handler. -/
theorem device_properties_cb_stale {φ : Type} (uuid : String) (reply : DBusMessage)
    (path : String) :
    device_properties_cb uuid (⟨.null, .freed⟩ : State φ) reply path = .error .use_after_free
    ∨ device_properties_cb uuid (⟨.null, .freed⟩ : State φ) reply path = .ok [] := by
  unfold device_properties_cb
  simp only []
  split
  · exact Or.inr rfl
  · split
    · exact Or.inr rfl
    · generalize run_handlers (bluetooth_parse_properties reply (device_handlers uuid))
        ⟨0, none, none, none⟩ = locals
      obtain ⟨hu, ad, da, al⟩ := locals
      cases ad with
      | some a => exact Or.inl (by simp [g_hash_table_lookup, bind, Except.bind])
      | none =>
        refine Or.inr ?_
        cases da <;> cases hflag : (hu &&& HFP_AG != 0) <;>
          simp [hflag, bind, Except.bind, pure, Except.pure]

/-- C8 at its failing input: register and unregister of the one capability leave
the mapping pointer null and the cache pointer stale; a completion of the adapter
query for `/a0` that fires then, with a well-formed property bag, inserts into the
released cache, and a completion of the device query for `/a0/d0` looks up the
released cache. -/
theorem callbacks_after_teardown :
    run_calls [Call.register "hfp-ag-uuid" (some ⟨some "create"⟩), .unregister "hfp-ag-uuid"]
        (State.init : State String) = .ok ⟨.null, .freed⟩
    ∧ (∀ addr, adapter_properties_cb (⟨.null, .freed⟩ : State String)
        ⟨.method_return, none,
          [.dict [⟨.string "Devices", .variant (.array .object_path ["/a0/d0"])⟩,
                  ⟨.string "Address", .variant (.string "00:11:22:33:44:55")⟩]]⟩
        "/a0" addr = .error .use_after_free)
    ∧ device_properties_cb "hfp-ag-uuid" (⟨.null, .freed⟩ : State String)
        ⟨.method_return, none,
          [.dict [⟨.string "UUIDs", .variant (.array .string ["hfp-ag-uuid"])⟩,
                  ⟨.string "Address", .variant (.string "AA:BB:CC:DD:EE:FF")⟩,
                  ⟨.string "Adapter", .variant (.object_path "/a0")⟩]]⟩
        "/a0/d0" = .error .use_after_free := by
  refine ⟨by decide, fun addr => adapter_properties_cb_stale _ _ _ _ (by decide), by decide⟩

end Bluetooth
